import Mathlib

/-!
Verification of the training-loop controller of `code/cohorts_viz.py`
(multi-agent pandemic simulator): episode runner, epsilon-annealing
schedule, per-episode statistics aggregation, policy snapshot
extraction, replay setup, and the cohort visualizer.

The embedding is shallow: Python lists become `List`, floats in the
statistics become `ℚ` (the epsilon schedule, whose claims are about the
real-number behaviour of `**`, uses `ℝ`), dict/object references become
numeric addresses into an explicit heap, and code that can raise
becomes `Except`.
-/

namespace CohortsViz

/-- A per-agent decision table.  The agent class lives in
`pandemic_cohorts` (not under `src/`); modelled from the spec: the
glossary describes the Q-table as a "per-agent learned mapping from
discretized state to estimated action values", i.e. a mutable mapping,
here an association list from state to value. -/
abbrev QTable : Type := List (ℕ × ℤ)

/-- The Python heap restricted to decision tables: addresses to table
values.  Python attribute/dict assignment copies the address; in-place
mutation of a table writes through the address. -/
def Heap : Type := ℕ → QTable

/-- In-place mutation of the table stored at address `a`. -/
def heapWrite (h : Heap) (a : ℕ) (t : QTable) : Heap :=
  fun x => if x = a then t else h x

/-- An agent record, per the agent contract consumed by
`cohorts_viz.py`: mutable attributes `health`, `cohort_id`,
`vaccinated`, `social_contacts`, `q_table`, `epsilon`.  The `q_table`
attribute holds a reference (a heap address), mirroring Python object
semantics. -/
structure Person where
  cohort_id : ℕ
  health : String
  vaccinated : ℚ
  social_contacts : ℚ
  q_table : ℕ
  epsilon : ℚ
deriving DecidableEq

/-! ## Statistics Aggregator (`run_simulation`, lines 85–95) -/

/-- `np.mean` on a list of rationals (callers guard against the empty
list, as the source does with its `any(...)` conditional). -/
def listMean (xs : List ℚ) : ℚ := xs.sum / xs.length

/-- The five scalar reductions appended per episode. -/
structure EpisodeStats where
  infection_rate : ℚ
  death_rate : ℚ
  vaccination_rate : ℚ
  mask_usage_rate : ℚ
  avg_social_contacts : ℚ
deriving DecidableEq

/-- Lines 85–95 of `run_simulation`: the end-of-episode reductions.
`num_people` is the constructor parameter `P`; `avg_mask_usage` is the
environment-owned pass-through value. -/
def record_episode_stats (people : List Person) (num_people : ℕ)
    (avg_mask_usage : ℚ) : EpisodeStats :=
  let num_infected : ℕ := people.countP (fun p => p.health == "infected")
  let num_dead : ℕ := people.countP (fun p => p.health == "dead")
  let avg_vaccination : ℚ :=
    if people.any (fun p => p.health != "dead") then
      listMean ((people.filter (fun p => p.health != "dead")).map (·.vaccinated))
    else 0
  let avg_contacts : ℚ :=
    if people.any (fun p => p.health != "dead") then
      listMean ((people.filter (fun p => p.health != "dead")).map (·.social_contacts))
    else 0
  { infection_rate := (num_infected : ℚ) / (num_people : ℚ)
    death_rate := (num_dead : ℚ) / (num_people : ℚ)
    vaccination_rate := avg_vaccination
    mask_usage_rate := avg_mask_usage
    avg_social_contacts := avg_contacts }

/-! ## Policy Snapshot Extractor (`run_simulation`, lines 116–118) -/

/-- The snapshot key `f"agent_{i}"`. -/
def mkKey (i : ℕ) : String := "agent_" ++ toString i

/-- Lines 116–118: `q_tables[f"agent_{i}"] = person.q_table`.  Python
dict assignment stores the object reference (the address), not a copy
of the table value. -/
def extract_q_tables (people : List Person) : List (String × ℕ) :=
  people.enum.map (fun ip => (mkKey ip.1, ip.2.q_table))

/-- The table value currently observable through a snapshot entry:
dereference the stored address in the given heap. -/
def snapshotValue (h : Heap) (q_tables : List (String × ℕ)) (k : String) :
    Option QTable :=
  (q_tables.lookup k).map h

/-! ## Replay setup (`run_visualization_episode`, lines 128–131)

After `env.reset()` and before the first `choose_action` call, the
source walks `enumerate(env.people)` and, for each index whose key is
present in `q_tables`, rebinds that agent's `q_table` attribute to the
snapshot entry and sets its `epsilon` to `0`. -/

/-- The loop body of lines 128–131, threading the running index. -/
def replay_setupAux (q_tables : List (String × ℕ)) :
    List Person → ℕ → List Person
  | [], _ => []
  | p :: ps, i =>
    (match q_tables.lookup (mkKey i) with
     | some t => { p with q_table := t, epsilon := 0 }
     | none => p) :: replay_setupAux q_tables ps (i + 1)

/-- Lines 128–131 applied to the freshly reset population. -/
def replay_setup (people : List Person) (q_tables : List (String × ℕ)) :
    List Person :=
  replay_setupAux q_tables people 0

/-! ## Episode Runner (`run_simulation`, lines 76–82)

The environment's `step` is an external collaborator; it is modelled
as an oracle giving, for each day index, the `(reward, terminated,
truncated)` triple it would return.  The loop accumulates the reward
of every step taken (the `episode_reward += reward` precedes the
break), and breaks as soon as `terminated or truncated`. -/

/-- One `env.step` result: reward, terminated, truncated. -/
abbrev StepResult : Type := ℤ × Bool × Bool

/-- `terminated or truncated`. -/
def stops (r : StepResult) : Bool := r.2.1 || r.2.2

/-- The `for day in range(max_steps)` loop, lines 76–82: `fuel` is the
number of loop iterations remaining, `day` the next day index (also
the number of `env.step` calls made so far), `acc` the reward total.
Returns the final reward total and the number of `env.step` calls. -/
def run_episode_aux (oracle : ℕ → StepResult) :
    ℕ → ℕ → ℤ → ℤ × ℕ
  | 0, day, acc => (acc, day)
  | fuel + 1, day, acc =>
    let r := oracle day
    if stops r then (acc + r.1, day + 1)
    else run_episode_aux oracle fuel (day + 1) (acc + r.1)

/-- One episode from day 0 with reward total 0, bounded by `max_steps`. -/
def run_episode (oracle : ℕ → StepResult) (max_steps : ℕ) : ℤ × ℕ :=
  run_episode_aux oracle max_steps 0 0

/-! ## Epsilon-annealing schedule

`decay_rate` is line 42 of `run_simulation`.  The decay step itself is
`InfectionEnv.decay_epsilon`, which lives in `pandemic_cohorts` (not
under `src/`). -/

/-- Line 42: `decay_rate = (epsilon_end / epsilon_start) ** (1 / num_episodes)`
(Python true division; real exponentiation). -/
noncomputable def decay_rate (epsilon_start epsilon_end : ℝ) (num_episodes : ℕ) : ℝ :=
  (epsilon_end / epsilon_start) ^ ((1 : ℝ) / num_episodes)

/-- Modelled from the spec: `InfectionEnv.decay_epsilon` is not under
`src/`; per §4.1 it applies `epsilon ← max(epsilon_end, epsilon * decay_rate)`. -/
def decay_epsilon (epsilon_end rate eps : ℝ) : ℝ :=
  max epsilon_end (eps * rate)

/-- Epsilon after `k` decay steps starting from `epsilon_start`, with
the rate computed for `num_episodes` total episodes. -/
noncomputable def epsilon_after (epsilon_start epsilon_end : ℝ)
    (num_episodes k : ℕ) : ℝ :=
  (decay_epsilon epsilon_end (decay_rate epsilon_start epsilon_end num_episodes))^[k]
    epsilon_start

/-! ## Cohort Visualizer (`visualize_agents_by_cohort`, lines 157–234)

The drawing primitives themselves are I/O; what is modelled is every
data access that can raise (`cohort_centers[person.cohort_id]`,
`health_colors[person.health]`, `env.cohort_profiles[i]`,
`stats_text[0..2]`) and the per-cohort statistics computation. -/

/-- Lines 162–168: the health-state → colour dict, in insertion order. -/
def health_colors : List (String × String) :=
  [("susceptible", "blue"), ("exposed", "orange"), ("infected", "red"),
   ("recovered", "green"), ("dead", "black")]

/-- Lines 172–176: the three cluster centers, in cohort-id order. -/
def cohort_centers : List (ℤ × ℤ) := [(-5, 0), (0, 0), (5, 0)]

/-- The exceptions `visualize_agents_by_cohort` can raise, tagged by
the raising access. -/
inductive VizError where
  /-- `IndexError` at `cohort_centers[person.cohort_id]` (line 179). -/
  | centerIndex (i : ℕ) : VizError
  /-- `KeyError` at `health_colors[person.health]` (line 184). -/
  | colorKey (h : String) : VizError
  /-- `IndexError` at `env.cohort_profiles[i]` (line 187). -/
  | profileIndex (i : ℕ) : VizError
  /-- `IndexError` at `stats_text[k]` (lines 225–227). -/
  | statsTextIndex (k : ℕ) : VizError
deriving DecidableEq

/-- Lines 178–184: the scatter loop.  For each agent, in list order,
index the centers by `cohort_id` and the colour dict by `health`; the
Gaussian jitter and the draw itself are side effects with no failure
mode of their own. -/
def scatter_people : List Person → Except VizError Unit
  | [] => .ok ()
  | p :: ps =>
    match cohort_centers.get? p.cohort_id with
    | none => .error (.centerIndex p.cohort_id)
    | some _ =>
      match health_colors.lookup p.health with
      | none => .error (.colorKey p.health)
      | some _ => scatter_people ps

/-- Lines 186–188: `for i, (x, y) in enumerate(cohort_centers):
env.cohort_profiles[i]['name']` — three profile accesses, in order. -/
def annotate_cohorts (cohort_profiles : List String) : Except VizError Unit :=
  match cohort_profiles.get? 0 with
  | none => .error (.profileIndex 0)
  | some _ =>
    match cohort_profiles.get? 1 with
    | none => .error (.profileIndex 1)
    | some _ =>
      match cohort_profiles.get? 2 with
      | none => .error (.profileIndex 2)
      | some _ => .ok ()

/-- Line 205: the members of cohort `i`. -/
def cohort_members (people : List Person) (i : ℕ) : List Person :=
  people.filter (fun p => p.cohort_id == i)

/-- Lines 210–214: count of members in a given health state. -/
def count_health (ps : List Person) (h : String) : ℕ :=
  ps.countP (fun p => p.health == h)

/-- The per-cohort numbers behind one stats text block (the rendered
percentages are `count / total` with `total ≠ 0` guaranteed by the
skip guard). -/
structure CohortStats where
  total : ℕ
  susceptible : ℕ
  exposed : ℕ
  infected : ℕ
  recovered : ℕ
  dead : ℕ
deriving DecidableEq

/-- Lines 210–214 for one cohort's member list. -/
def cohort_stats_of (ps : List Person) : CohortStats :=
  { total := ps.length
    susceptible := count_health ps "susceptible"
    exposed := count_health ps "exposed"
    infected := count_health ps "infected"
    recovered := count_health ps "recovered"
    dead := count_health ps "dead" }

/-- Lines 203–223: `for i, profile in enumerate(env.cohort_profiles)`,
skipping (`continue`) any cohort with zero members, appending a stats
block otherwise. -/
def build_stats_text (people : List Person) (num_profiles : ℕ) :
    List CohortStats :=
  (List.range num_profiles).filterMap (fun i =>
    let members := cohort_members people i
    if members.length = 0 then none
    else some (cohort_stats_of members))

/-- Lines 225–227: `plt.figtext(..., stats_text[0/1/2], ...)` — three
unconditional list indexings. -/
def figtext_blocks (stats_text : List CohortStats) :
    Except VizError (CohortStats × CohortStats × CohortStats) :=
  match stats_text.get? 0 with
  | none => .error (.statsTextIndex 0)
  | some s0 =>
    match stats_text.get? 1 with
    | none => .error (.statsTextIndex 1)
    | some s1 =>
      match stats_text.get? 2 with
      | none => .error (.statsTextIndex 2)
      | some s2 => .ok (s0, s1, s2)

/-- The environment data `visualize_agents_by_cohort` reads. -/
structure VizEnv where
  people : List Person
  cohort_profiles : List String

/-- Lines 157–234 in source order: scatter loop, cohort-name
annotations, stats blocks with the zero-member skip, then the three
`figtext` accesses.  The first raised exception propagates. -/
def visualize_agents_by_cohort (env : VizEnv) :
    Except VizError (CohortStats × CohortStats × CohortStats) := do
  let _ ← scatter_people env.people
  let _ ← annotate_cohorts env.cohort_profiles
  figtext_blocks (build_stats_text env.people env.cohort_profiles.length)

/-- A scatter-phase error (index into the centers or key into the
colour dict), as opposed to the later profile/figtext accesses. -/
def isScatterError : VizError → Bool
  | .centerIndex _ => true
  | .colorKey _ => true
  | _ => false

/-- An agent the scatter loop can draw: its cohort id indexes
`cohort_centers` (length 3) and its health keys `health_colors`. -/
def validPerson (p : Person) : Prop :=
  p.cohort_id < 3 ∧
    p.health ∈ (["susceptible", "exposed", "infected", "recovered", "dead"] : List String)

instance (p : Person) : Decidable (validPerson p) :=
  inferInstanceAs (Decidable (_ ∧ _))

/-! ## Unfolding equations for the recorded statistics -/

theorem infection_rate_eq (people : List Person) (P : ℕ) (m : ℚ) :
    (record_episode_stats people P m).infection_rate =
      ((people.countP (fun p => p.health == "infected") : ℚ)) / (P : ℚ) := rfl

theorem death_rate_eq (people : List Person) (P : ℕ) (m : ℚ) :
    (record_episode_stats people P m).death_rate =
      ((people.countP (fun p => p.health == "dead") : ℚ)) / (P : ℚ) := rfl

theorem vaccination_rate_eq (people : List Person) (P : ℕ) (m : ℚ) :
    (record_episode_stats people P m).vaccination_rate =
      if people.any (fun p => p.health != "dead") then
        listMean ((people.filter (fun p => p.health != "dead")).map (·.vaccinated))
      else 0 := rfl

theorem mask_usage_rate_eq (people : List Person) (P : ℕ) (m : ℚ) :
    (record_episode_stats people P m).mask_usage_rate = m := rfl

theorem avg_social_contacts_eq (people : List Person) (P : ℕ) (m : ℚ) :
    (record_episode_stats people P m).avg_social_contacts =
      if people.any (fun p => p.health != "dead") then
        listMean ((people.filter (fun p => p.health != "dead")).map (·.social_contacts))
      else 0 := rfl

/-! ## C5: all-agents-dead fallback -/

/-- C5: when every agent's health is `"dead"` at episode end, the
aggregator reports average vaccination `0` and average social
contacts `0` through the `else 0` fallback of lines 87 and 89 — no
empty mean or zero division is evaluated. -/
theorem C5_all_dead_stats_fallback (people : List Person) (P : ℕ) (m : ℚ)
    (h : ∀ p ∈ people, p.health = "dead") :
    (record_episode_stats people P m).vaccination_rate = 0 ∧
    (record_episode_stats people P m).avg_social_contacts = 0 := by
  have hany : people.any (fun p => p.health != "dead") = false := by
    rw [List.any_eq_false]
    intro p hp
    simp [h p hp]
  rw [vaccination_rate_eq, avg_social_contacts_eq, hany]
  exact ⟨rfl, rfl⟩

/-- C5 witness: a concrete two-agent all-dead population. -/
theorem C5_all_dead_stats_fallback_witness :
    (∀ p ∈ [Person.mk 0 "dead" 1 2 0 1, Person.mk 1 "dead" 0 5 1 1], p.health = "dead") ∧
    ((record_episode_stats [Person.mk 0 "dead" 1 2 0 1, Person.mk 1 "dead" 0 5 1 1] 2 0).vaccination_rate = 0 ∧
     (record_episode_stats [Person.mk 0 "dead" 1 2 0 1, Person.mk 1 "dead" 0 5 1 1] 2 0).avg_social_contacts = 0) :=
  ⟨by decide, C5_all_dead_stats_fallback _ 2 0 (by decide)⟩

/-! ## C7 and C9: the replay setup loop -/

/-- Positional characterisation of the loop of lines 128–131: entry
`i` of the output is entry `i` of the input, overwritten exactly when
the key `agent_(n+i)` is in the snapshot map. -/
theorem replay_setupAux_get? (q_tables : List (String × ℕ))
    (ps : List Person) (n i : ℕ) :
    (replay_setupAux q_tables ps n).get? i =
      (ps.get? i).map (fun p =>
        match q_tables.lookup (mkKey (n + i)) with
        | some t => { p with q_table := t, epsilon := 0 }
        | none => p) := by
  induction ps generalizing n i with
  | nil => simp [replay_setupAux]
  | cons p ps ih =>
    cases i with
    | zero => simp [replay_setupAux]
    | succ j =>
      simp only [replay_setupAux, List.get?_cons_succ]
      have h := ih (n + 1) j
      rw [show n + 1 + j = n + (j + 1) by omega] at h
      exact h

/-- C7: after the reset, for every agent index `i` whose key
`agent_<i>` is in `q_tables`, the setup loop of
`run_visualization_episode` (which runs before the first
`choose_action`) rebinds that agent's decision table to the snapshot
entry and sets its epsilon to `0`. -/
theorem C7_replay_overwrites_snapshotted_agents
    (people : List Person) (q_tables : List (String × ℕ)) (i : ℕ)
    (p : Person) (t : ℕ)
    (hp : people.get? i = some p)
    (ht : q_tables.lookup (mkKey i) = some t) :
    (replay_setup people q_tables).get? i =
      some { p with q_table := t, epsilon := 0 } := by
  rw [replay_setup, replay_setupAux_get?, hp, Option.map_some']
  simp only [Nat.zero_add, ht]

/-- C7 witness: one agent, snapshot key `agent_0` present with table
address `7`. -/
theorem C7_replay_overwrites_snapshotted_agents_witness :
    [Person.mk 2 "susceptible" 1 2 3 1].get? 0 = some (Person.mk 2 "susceptible" 1 2 3 1) ∧
    ([("agent_0", 7)] : List (String × ℕ)).lookup (mkKey 0) = some 7 ∧
    (replay_setup [Person.mk 2 "susceptible" 1 2 3 1] [("agent_0", 7)]).get? 0 =
      some (Person.mk 2 "susceptible" 1 2 7 0) :=
  ⟨by decide, by decide,
    C7_replay_overwrites_snapshotted_agents [Person.mk 2 "susceptible" 1 2 3 1]
      [("agent_0", 7)] 0 (Person.mk 2 "susceptible" 1 2 3 1) 7 (by decide) (by decide)⟩

/-- C9: the implicit frame condition — any agent index whose key
`agent_<i>` is absent from the snapshot map is left exactly as the
reset produced it (decision table and epsilon untouched). -/
theorem C9_replay_leaves_unsnapshotted_agents
    (people : List Person) (q_tables : List (String × ℕ)) (i : ℕ)
    (p : Person)
    (hp : people.get? i = some p)
    (ht : q_tables.lookup (mkKey i) = none) :
    (replay_setup people q_tables).get? i = some p := by
  rw [replay_setup, replay_setupAux_get?, hp, Option.map_some']
  simp only [Nat.zero_add, ht]

/-- C9 witness: two agents, snapshot holding only key `agent_0`;
agent 1 keeps its reset-produced table address `3` and epsilon `1`. -/
theorem C9_replay_leaves_unsnapshotted_agents_witness :
    [Person.mk 2 "susceptible" 1 2 9 1, Person.mk 0 "exposed" 0 4 3 1].get? 1 =
      some (Person.mk 0 "exposed" 0 4 3 1) ∧
    ([("agent_0", 7)] : List (String × ℕ)).lookup (mkKey 1) = none ∧
    (replay_setup [Person.mk 2 "susceptible" 1 2 9 1, Person.mk 0 "exposed" 0 4 3 1]
        [("agent_0", 7)]).get? 1 = some (Person.mk 0 "exposed" 0 4 3 1) :=
  ⟨by decide, by decide,
    C9_replay_leaves_unsnapshotted_agents
      [Person.mk 2 "susceptible" 1 2 9 1, Person.mk 0 "exposed" 0 4 3 1]
      [("agent_0", 7)] 1 (Person.mk 0 "exposed" 0 4 3 1) (by decide) (by decide)⟩

/-! ## C1: the snapshot is a shared reference, not a value copy -/

/-- C1: lines 116–118 store each agent's table by reference
(`q_tables[f"agent_{i}"] = person.q_table`), so the snapshot is NOT
isolated: at the concrete input below (one agent whose table lives at
address 0 holding `[(0, 1)]`), an in-place mutation of the live
agent's table (a heap write through the agent's own address) changes
the value observed through the previously captured snapshot entry
from `[(0, 1)]` to `[(0, 2)]`, contradicting snapshot isolation. -/
theorem C1_snapshot_shares_reference_eval :
    snapshotValue (fun _ => [(0, 1)])
        (extract_q_tables [Person.mk 0 "susceptible" 1 2 0 1]) (mkKey 0) =
      some [(0, 1)] ∧
    snapshotValue (heapWrite (fun _ => [(0, 1)]) (Person.mk 0 "susceptible" 1 2 0 1).q_table [(0, 2)])
        (extract_q_tables [Person.mk 0 "susceptible" 1 2 0 1]) (mkKey 0) =
      some [(0, 2)] :=
  ⟨rfl, rfl⟩

/-! ## C2: an empty cohort is skipped in the stats, but the figtext
indexing then fails -/

/-- C2: at the concrete input below (two agents, both in cohort 0,
three cohort profiles), the stats loop of lines 203–223 skips the two
empty cohorts — no division by zero is evaluated and exactly one
stats block is built — but line 226 (`plt.figtext(0.4, 0.02,
stats_text[1], ...)`) then raises an `IndexError`, so
`visualize_agents_by_cohort` does not complete. -/
theorem C2_empty_cohort_figtext_error_eval :
    build_stats_text
        [Person.mk 0 "susceptible" 1 2 0 1, Person.mk 0 "infected" 0 3 1 1] 3 =
      [CohortStats.mk 2 1 0 1 0 0] ∧
    visualize_agents_by_cohort
        ⟨[Person.mk 0 "susceptible" 1 2 0 1, Person.mk 0 "infected" 0 3 1 1],
         ["Science Followers", "Moderates", "Freedom Prioritizers"]⟩ =
      .error (.statsTextIndex 1) :=
  ⟨rfl, rfl⟩

/-! ## C4: the inner step loop -/

/-- The loop makes at most `fuel` further `env.step` calls beyond the
`day` already made. -/
theorem run_episode_aux_calls_le (oracle : ℕ → StepResult) :
    ∀ fuel day acc, (run_episode_aux oracle fuel day acc).2 ≤ day + fuel := by
  intro fuel
  induction fuel with
  | zero => intro day acc; simp [run_episode_aux]
  | succ n ih =>
    intro day acc
    rw [run_episode_aux]
    cases hs : stops (oracle day) with
    | true =>
      simp only [hs, if_true]
      omega
    | false =>
      simp only [hs, Bool.false_eq_true, if_false]
      have := ih (day + 1) (acc + (oracle day).1)
      omega

/-- If the first stopping step after `day` is `day + k` (still within
the remaining fuel), the loop returns after exactly `k + 1` further
calls with the rewards of all `k + 1` steps accumulated. -/
theorem run_episode_aux_stops (oracle : ℕ → StepResult) :
    ∀ fuel k day acc, k < fuel →
      (∀ j, j < k → stops (oracle (day + j)) = false) →
      stops (oracle (day + k)) = true →
      run_episode_aux oracle fuel day acc =
        (acc + ∑ j ∈ Finset.range (k + 1), (oracle (day + j)).1, day + k + 1) := by
  intro fuel
  induction fuel with
  | zero => intro k day acc hk; omega
  | succ n ih =>
    intro k day acc hk hbefore hstop
    rw [run_episode_aux]
    cases k with
    | zero =>
      simp only [Nat.add_zero] at hstop
      simp [hstop]
    | succ k =>
      have h0 : stops (oracle day) = false := by
        simpa using hbefore 0 (Nat.succ_pos k)
      simp only [h0, Bool.false_eq_true, if_false]
      have hrec := ih k (day + 1) (acc + (oracle day).1) (by omega)
        (fun j hj => by
          have := hbefore (j + 1) (by omega)
          simpa [show day + 1 + j = day + (j + 1) by omega] using this)
        (by simpa [show day + 1 + k = day + (k + 1) by omega] using hstop)
      rw [hrec, Prod.mk.injEq]
      constructor
      · have hsum : ∑ j ∈ Finset.range (k + 1), (oracle (day + 1 + j)).1
            = ∑ j ∈ Finset.range (k + 1), (oracle (day + (j + 1))).1 :=
          Finset.sum_congr rfl (fun j _ => by
            rw [show day + 1 + j = day + (j + 1) by omega])
        rw [hsum, Finset.sum_range_succ' (fun j => (oracle (day + j)).1) (k + 1)]
        simp only [Nat.add_zero]
        ring
      · omega

/-- C4: for every environment behaviour (modelled as an oracle giving
each step's `(reward, terminated, truncated)`), the inner loop of
lines 76–82 calls `env.step` at most `max_steps` times; and whenever
the first terminated/truncated signal arrives at (0-based) step index
`k < max_steps`, the loop exits right there — after `k + 1` calls, not
at the step maximum — with the terminating step's reward included in
the episode total. -/
theorem C4_episode_loop_stops_early (oracle : ℕ → StepResult) (max_steps : ℕ) :
    (run_episode oracle max_steps).2 ≤ max_steps ∧
    (∀ k, k < max_steps →
      (∀ j, j < k → stops (oracle j) = false) →
      stops (oracle k) = true →
      (run_episode oracle max_steps).2 = k + 1 ∧
      (run_episode oracle max_steps).1 = ∑ j ∈ Finset.range (k + 1), (oracle j).1) := by
  constructor
  · simpa using run_episode_aux_calls_le oracle max_steps 0 0
  · intro k hk hbefore hstop
    have h := run_episode_aux_stops oracle max_steps k 0 0 hk
      (by simpa using hbefore) (by simpa using hstop)
    rw [run_episode, h]
    exact ⟨by simp, by simp⟩

/-- C4 witness: the end-to-end scenario — reward 1 with
`terminated=False` on step 1, reward 1 with `terminated=True` on step
2, step maximum 3 (> 2): the loop makes exactly 2 calls and the
episode reward totals 2. -/
theorem C4_episode_loop_stops_early_witness :
    (run_episode (fun n => if n = 0 then ((1 : ℤ), false, false) else (1, true, false)) 3).2 ≤ 3 ∧
    (run_episode (fun n => if n = 0 then ((1 : ℤ), false, false) else (1, true, false)) 3).2 = 2 ∧
    (run_episode (fun n => if n = 0 then ((1 : ℤ), false, false) else (1, true, false)) 3).1 = 2 := by
  have h := C4_episode_loop_stops_early
    (fun n => if n = 0 then ((1 : ℤ), false, false) else (1, true, false)) 3
  refine ⟨h.1, ?_⟩
  have h2 := h.2 1 (by decide) (by decide) (by decide)
  refine ⟨h2.1, ?_⟩
  rw [h2.2]
  decide

/-! ## C6: recorded rates lie in `[0, 1]` -/

/-- The mean of a nonempty list of rationals drawn from `[0, 1]` lies
in `[0, 1]`. -/
theorem listMean_mem_unit (xs : List ℚ) (hne : xs ≠ [])
    (h : ∀ x ∈ xs, 0 ≤ x ∧ x ≤ 1) :
    0 ≤ listMean xs ∧ listMean xs ≤ 1 := by
  have hlen : 0 < xs.length := List.length_pos.mpr hne
  have hlenQ : (0 : ℚ) < (xs.length : ℚ) := by exact_mod_cast hlen
  have hsum0 : (0 : ℚ) ≤ xs.sum := List.sum_nonneg (fun x hx => (h x hx).1)
  have hsum1 : xs.sum ≤ (xs.length : ℚ) := by
    have := List.sum_le_card_nsmul xs 1 (fun x hx => (h x hx).2)
    simpa using this
  constructor
  · exact div_nonneg hsum0 hlenQ.le
  · rw [listMean, div_le_one hlenQ]
    exact hsum1

/-- A true `any` over the not-dead test yields a nonempty filtered
list. -/
theorem filter_not_dead_ne_nil (people : List Person)
    (hany : people.any (fun p => p.health != "dead") = true) :
    people.filter (fun p => p.health != "dead") ≠ [] := by
  rw [List.any_eq_true] at hany
  obtain ⟨p, hp, hdp⟩ := hany
  intro hnil
  have : p ∈ people.filter (fun p => p.health != "dead") :=
    List.mem_filter.mpr ⟨hp, hdp⟩
  rw [hnil] at this
  exact List.not_mem_nil p this

/-- C6: for a population of exactly `P > 0` agents, the appended
infection and death rates lie in `[0, 1]`; and given that every
agent's vaccination indicator lies in `[0, 1]` and the environment's
`avg_mask_usage` lies in `[0, 1]`, so do the appended vaccination and
mask-usage averages. -/
theorem C6_recorded_rates_in_unit_interval (people : List Person) (P : ℕ) (m : ℚ)
    (hlen : people.length = P) (hP : 0 < P)
    (hvac : ∀ p ∈ people, 0 ≤ p.vaccinated ∧ p.vaccinated ≤ 1)
    (hm : 0 ≤ m ∧ m ≤ 1) :
    (0 ≤ (record_episode_stats people P m).infection_rate ∧
      (record_episode_stats people P m).infection_rate ≤ 1) ∧
    (0 ≤ (record_episode_stats people P m).death_rate ∧
      (record_episode_stats people P m).death_rate ≤ 1) ∧
    (0 ≤ (record_episode_stats people P m).vaccination_rate ∧
      (record_episode_stats people P m).vaccination_rate ≤ 1) ∧
    (0 ≤ (record_episode_stats people P m).mask_usage_rate ∧
      (record_episode_stats people P m).mask_usage_rate ≤ 1) := by
  have hPQ : (0 : ℚ) < (P : ℚ) := by exact_mod_cast hP
  have rate_bounds : ∀ c : ℕ, c ≤ P → 0 ≤ (c : ℚ) / (P : ℚ) ∧ (c : ℚ) / (P : ℚ) ≤ 1 := by
    intro c hc
    constructor
    · positivity
    · rw [div_le_one hPQ]
      exact_mod_cast hc
  refine ⟨?_, ?_, ?_, ?_⟩
  · rw [infection_rate_eq]
    exact rate_bounds _ (hlen ▸ List.countP_le_length _)
  · rw [death_rate_eq]
    exact rate_bounds _ (hlen ▸ List.countP_le_length _)
  · rw [vaccination_rate_eq]
    cases hany : people.any (fun p => p.health != "dead") with
    | false => simp
    | true =>
      simp only [if_true]
      apply listMean_mem_unit
      · simp only [ne_eq, List.map_eq_nil_iff]
        exact filter_not_dead_ne_nil people hany
      · intro x hx
        obtain ⟨p, hp, hpx⟩ := List.mem_map.mp hx
        have hpe : p ∈ people := (List.mem_filter.mp hp).1
        exact hpx ▸ hvac p hpe
  · rw [mask_usage_rate_eq]
    exact hm

/-- C6 witness: two agents (one infected, one dead vaccinated),
`P = 2`, mask usage `1/2`. -/
theorem C6_recorded_rates_in_unit_interval_witness :
    ([Person.mk 0 "infected" 1 2 0 1, Person.mk 1 "dead" 1 0 1 1].length = 2 ∧
      0 < 2 ∧
      (∀ p ∈ [Person.mk 0 "infected" 1 2 0 1, Person.mk 1 "dead" 1 0 1 1],
        0 ≤ p.vaccinated ∧ p.vaccinated ≤ 1) ∧
      (0 ≤ (1 / 2 : ℚ) ∧ (1 / 2 : ℚ) ≤ 1)) ∧
    ((0 ≤ (record_episode_stats [Person.mk 0 "infected" 1 2 0 1, Person.mk 1 "dead" 1 0 1 1] 2 (1 / 2)).infection_rate ∧
      (record_episode_stats [Person.mk 0 "infected" 1 2 0 1, Person.mk 1 "dead" 1 0 1 1] 2 (1 / 2)).infection_rate ≤ 1) ∧
     (0 ≤ (record_episode_stats [Person.mk 0 "infected" 1 2 0 1, Person.mk 1 "dead" 1 0 1 1] 2 (1 / 2)).death_rate ∧
      (record_episode_stats [Person.mk 0 "infected" 1 2 0 1, Person.mk 1 "dead" 1 0 1 1] 2 (1 / 2)).death_rate ≤ 1) ∧
     (0 ≤ (record_episode_stats [Person.mk 0 "infected" 1 2 0 1, Person.mk 1 "dead" 1 0 1 1] 2 (1 / 2)).vaccination_rate ∧
      (record_episode_stats [Person.mk 0 "infected" 1 2 0 1, Person.mk 1 "dead" 1 0 1 1] 2 (1 / 2)).vaccination_rate ≤ 1) ∧
     (0 ≤ (record_episode_stats [Person.mk 0 "infected" 1 2 0 1, Person.mk 1 "dead" 1 0 1 1] 2 (1 / 2)).mask_usage_rate ∧
      (record_episode_stats [Person.mk 0 "infected" 1 2 0 1, Person.mk 1 "dead" 1 0 1 1] 2 (1 / 2)).mask_usage_rate ≤ 1)) :=
  ⟨⟨rfl, by norm_num, by decide, by norm_num⟩,
    C6_recorded_rates_in_unit_interval
      [Person.mk 0 "infected" 1 2 0 1, Person.mk 1 "dead" 1 0 1 1] 2 (1 / 2)
      rfl (by norm_num) (by decide) (by norm_num)⟩

/-! ## C8: cohort statistics partition the population -/

/-- When every member's health is one of the five categorical states,
the five health counts partition the member list. -/
theorem count_health_partition (ps : List Person)
    (h : ∀ p ∈ ps,
      p.health ∈ (["susceptible", "exposed", "infected", "recovered", "dead"] : List String)) :
    count_health ps "susceptible" + count_health ps "exposed" +
      count_health ps "infected" + count_health ps "recovered" +
      count_health ps "dead" = ps.length := by
  induction ps with
  | nil => rfl
  | cons p ps ih =>
    have hp := h p (List.mem_cons_self p ps)
    have ht := ih (fun q hq => h q (List.mem_cons_of_mem p hq))
    simp only [count_health, List.countP_cons, List.length_cons] at *
    simp only [List.mem_cons, List.mem_singleton, List.not_mem_nil, or_false] at hp
    rcases hp with h5 | h5 | h5 | h5 | h5 <;> simp [h5] <;> omega

/-- When every agent's cohort id is in `{0, 1, 2}`, the three cohort
member lists partition the population. -/
theorem cohort_members_partition (people : List Person)
    (h : ∀ p ∈ people, p.cohort_id < 3) :
    (cohort_members people 0).length + (cohort_members people 1).length +
      (cohort_members people 2).length = people.length := by
  induction people with
  | nil => rfl
  | cons p ps ih =>
    have hp := h p (List.mem_cons_self p ps)
    have ht := ih (fun q hq => h q (List.mem_cons_of_mem p hq))
    simp only [cohort_members, List.filter_cons, List.length_cons] at *
    interval_cases hc : p.cohort_id <;> simp <;> omega

/-- C8: whenever every agent's health is exactly one of the five
categorical states, each cohort's five health counts (as computed by
the stats block of `visualize_agents_by_cohort`) sum to that cohort's
member count; and, with every cohort id in `{0, 1, 2}`, the three
cohort totals sum to the total population. -/
theorem C8_cohort_counts_partition (people : List Person)
    (hhealth : ∀ p ∈ people,
      p.health ∈ (["susceptible", "exposed", "infected", "recovered", "dead"] : List String))
    (hcoh : ∀ p ∈ people, p.cohort_id < 3) :
    (∀ i : ℕ,
      (cohort_stats_of (cohort_members people i)).susceptible +
        (cohort_stats_of (cohort_members people i)).exposed +
        (cohort_stats_of (cohort_members people i)).infected +
        (cohort_stats_of (cohort_members people i)).recovered +
        (cohort_stats_of (cohort_members people i)).dead =
      (cohort_stats_of (cohort_members people i)).total) ∧
    (cohort_stats_of (cohort_members people 0)).total +
      (cohort_stats_of (cohort_members people 1)).total +
      (cohort_stats_of (cohort_members people 2)).total = people.length := by
  constructor
  · intro i
    apply count_health_partition
    intro p hp
    exact hhealth p (List.mem_filter.mp hp).1
  · exact cohort_members_partition people hcoh

/-- C8 witness: four agents spread over the three cohorts. -/
theorem C8_cohort_counts_partition_witness :
    ((∀ p ∈ [Person.mk 0 "susceptible" 1 0 0 1, Person.mk 1 "infected" 0 2 1 1,
        Person.mk 1 "dead" 0 0 2 1, Person.mk 2 "recovered" 1 3 3 1],
      p.health ∈ (["susceptible", "exposed", "infected", "recovered", "dead"] : List String)) ∧
     (∀ p ∈ [Person.mk 0 "susceptible" 1 0 0 1, Person.mk 1 "infected" 0 2 1 1,
        Person.mk 1 "dead" 0 0 2 1, Person.mk 2 "recovered" 1 3 3 1],
      p.cohort_id < 3)) ∧
    ((∀ i : ℕ,
      (cohort_stats_of (cohort_members [Person.mk 0 "susceptible" 1 0 0 1,
          Person.mk 1 "infected" 0 2 1 1, Person.mk 1 "dead" 0 0 2 1,
          Person.mk 2 "recovered" 1 3 3 1] i)).susceptible +
        (cohort_stats_of (cohort_members [Person.mk 0 "susceptible" 1 0 0 1,
          Person.mk 1 "infected" 0 2 1 1, Person.mk 1 "dead" 0 0 2 1,
          Person.mk 2 "recovered" 1 3 3 1] i)).exposed +
        (cohort_stats_of (cohort_members [Person.mk 0 "susceptible" 1 0 0 1,
          Person.mk 1 "infected" 0 2 1 1, Person.mk 1 "dead" 0 0 2 1,
          Person.mk 2 "recovered" 1 3 3 1] i)).infected +
        (cohort_stats_of (cohort_members [Person.mk 0 "susceptible" 1 0 0 1,
          Person.mk 1 "infected" 0 2 1 1, Person.mk 1 "dead" 0 0 2 1,
          Person.mk 2 "recovered" 1 3 3 1] i)).recovered +
        (cohort_stats_of (cohort_members [Person.mk 0 "susceptible" 1 0 0 1,
          Person.mk 1 "infected" 0 2 1 1, Person.mk 1 "dead" 0 0 2 1,
          Person.mk 2 "recovered" 1 3 3 1] i)).dead =
      (cohort_stats_of (cohort_members [Person.mk 0 "susceptible" 1 0 0 1,
          Person.mk 1 "infected" 0 2 1 1, Person.mk 1 "dead" 0 0 2 1,
          Person.mk 2 "recovered" 1 3 3 1] i)).total) ∧
     (cohort_stats_of (cohort_members [Person.mk 0 "susceptible" 1 0 0 1,
        Person.mk 1 "infected" 0 2 1 1, Person.mk 1 "dead" 0 0 2 1,
        Person.mk 2 "recovered" 1 3 3 1] 0)).total +
      (cohort_stats_of (cohort_members [Person.mk 0 "susceptible" 1 0 0 1,
        Person.mk 1 "infected" 0 2 1 1, Person.mk 1 "dead" 0 0 2 1,
        Person.mk 2 "recovered" 1 3 3 1] 1)).total +
      (cohort_stats_of (cohort_members [Person.mk 0 "susceptible" 1 0 0 1,
        Person.mk 1 "infected" 0 2 1 1, Person.mk 1 "dead" 0 0 2 1,
        Person.mk 2 "recovered" 1 3 3 1] 2)).total =
      [Person.mk 0 "susceptible" 1 0 0 1, Person.mk 1 "infected" 0 2 1 1,
        Person.mk 1 "dead" 0 0 2 1, Person.mk 2 "recovered" 1 3 3 1].length) :=
  ⟨⟨by decide, by decide⟩,
    C8_cohort_counts_partition
      [Person.mk 0 "susceptible" 1 0 0 1, Person.mk 1 "infected" 0 2 1 1,
        Person.mk 1 "dead" 0 0 2 1, Person.mk 2 "recovered" 1 3 3 1]
      (by decide) (by decide)⟩

/-! ## C10: the scatter loop's implicit validity precondition -/

/-- A population containing an agent with a cohort id outside
`{0, 1, 2}` or an unrecognised health string makes the scatter loop
raise (centers `IndexError` or colour-dict `KeyError`). -/
theorem scatter_people_error_of_invalid (people : List Person)
    (h : ∃ p ∈ people, ¬ validPerson p) :
    ∃ e, scatter_people people = .error e ∧ isScatterError e = true := by
  induction people with
  | nil =>
    obtain ⟨p, hp, _⟩ := h
    exact absurd hp (List.not_mem_nil p)
  | cons p ps ih =>
    by_cases hv : validPerson p
    · obtain ⟨q, hq, hnq⟩ := h
      rcases List.mem_cons.mp hq with rfl | hq'
      · exact absurd hv hnq
      · obtain ⟨e, he, hse⟩ := ih ⟨q, hq', hnq⟩
        obtain ⟨hc, hh⟩ := hv
        have hcen : ∃ c, cohort_centers.get? p.cohort_id = some c := by
          have : cohort_centers.get? p.cohort_id ≠ none := by
            rw [ne_eq, List.get?_eq_none]
            simp only [cohort_centers, List.length_cons, List.length_nil]
            omega
          exact Option.ne_none_iff_exists'.mp this
        have hcol : ∃ c, health_colors.lookup p.health = some c := by
          simp only [List.mem_cons, List.not_mem_nil, or_false] at hh
          rcases hh with h5 | h5 | h5 | h5 | h5 <;> rw [h5] <;> exact ⟨_, rfl⟩
        obtain ⟨cc, hcc⟩ := hcen
        obtain ⟨col, hcol'⟩ := hcol
        refine ⟨e, ?_, hse⟩
        simp only [scatter_people, hcc, hcol']
        exact he
    · rw [validPerson, not_and_or] at hv
      by_cases hcid : p.cohort_id < 3
      · have hh : p.health ∉ (["susceptible", "exposed", "infected", "recovered", "dead"] : List String) := by
          rcases hv with hv | hv
          · exact absurd hcid hv
          · exact hv
        simp only [List.mem_cons, List.not_mem_nil, or_false, not_or] at hh
        obtain ⟨h1, h2, h3, h4, h5⟩ := hh
        have hcen : ∃ c, cohort_centers.get? p.cohort_id = some c := by
          have : cohort_centers.get? p.cohort_id ≠ none := by
            rw [ne_eq, List.get?_eq_none]
            simp only [cohort_centers, List.length_cons, List.length_nil]
            omega
          exact Option.ne_none_iff_exists'.mp this
        obtain ⟨cc, hcc⟩ := hcen
        have hlk : health_colors.lookup p.health = none := by
          have b1 : (p.health == "susceptible") = false := beq_eq_false_iff_ne.mpr h1
          have b2 : (p.health == "exposed") = false := beq_eq_false_iff_ne.mpr h2
          have b3 : (p.health == "infected") = false := beq_eq_false_iff_ne.mpr h3
          have b4 : (p.health == "recovered") = false := beq_eq_false_iff_ne.mpr h4
          have b5 : (p.health == "dead") = false := beq_eq_false_iff_ne.mpr h5
          simp [health_colors, List.lookup, b1, b2, b3, b4, b5]
        refine ⟨.colorKey p.health, ?_, rfl⟩
        simp only [scatter_people, hcc, hlk]
      · have hnone : cohort_centers.get? p.cohort_id = none := by
          rw [List.get?_eq_none]
          simp only [cohort_centers, List.length_cons, List.length_nil]
          omega
        refine ⟨.centerIndex p.cohort_id, ?_, rfl⟩
        simp only [scatter_people, hnone]

/-- C10: `visualize_agents_by_cohort` can only complete when every
agent's cohort id is in `{0, 1, 2}` and its health is one of the five
known keys: any invalid agent makes the function raise, and the error
is a scatter-phase index/key error (lines 179 and 184). -/
theorem C10_scatter_requires_valid_agents (env : VizEnv)
    (h : ∃ p ∈ env.people, ¬ validPerson p) :
    ∃ e, visualize_agents_by_cohort env = .error e ∧ isScatterError e = true := by
  obtain ⟨e, he, hse⟩ := scatter_people_error_of_invalid env.people h
  refine ⟨e, ?_, hse⟩
  simp only [visualize_agents_by_cohort, he]
  rfl

/-- C10 witness: a single agent with cohort id 3 (outside
`{0, 1, 2}`). -/
theorem C10_scatter_requires_valid_agents_witness :
    (∃ p ∈ [Person.mk 3 "susceptible" 1 2 0 1], ¬ validPerson p) ∧
    ∃ e, visualize_agents_by_cohort
        ⟨[Person.mk 3 "susceptible" 1 2 0 1],
         ["Science Followers", "Moderates", "Freedom Prioritizers"]⟩ = .error e ∧
      isScatterError e = true :=
  ⟨by decide,
    C10_scatter_requires_valid_agents
      ⟨[Person.mk 3 "susceptible" 1 2 0 1],
       ["Science Followers", "Moderates", "Freedom Prioritizers"]⟩ (by decide)⟩

/-! ## C3: the epsilon-annealing schedule -/

theorem epsilon_after_zero (e0 e1 : ℝ) (N : ℕ) :
    epsilon_after e0 e1 N 0 = e0 := rfl

theorem epsilon_after_succ (e0 e1 : ℝ) (N k : ℕ) :
    epsilon_after e0 e1 N (k + 1) =
      decay_epsilon e1 (decay_rate e0 e1 N) (epsilon_after e0 e1 N k) := by
  rw [epsilon_after, epsilon_after, Function.iterate_succ_apply']

/-- `decay_rate ^ N` recovers the ratio `e1 / e0`. -/
theorem decay_rate_pow (e0 e1 : ℝ) (N : ℕ) (hN : 0 < N)
    (h1 : 0 ≤ e1) (he0 : 0 ≤ e0) :
    (decay_rate e0 e1 N) ^ N = e1 / e0 := by
  rw [decay_rate, one_div]
  exact Real.rpow_inv_natCast_pow (div_nonneg h1 he0) (Nat.pos_iff_ne_zero.mp hN)

/-- As long as `0 < e1 ≤ e0`, the `max` clamp never interferes before
step `N`: epsilon follows the pure geometric path `e0 * rate^k`. -/
theorem epsilon_after_eq_geometric (e0 e1 : ℝ) (N : ℕ)
    (hN : 0 < N) (h1 : 0 < e1) (h10 : e1 ≤ e0) :
    ∀ k, k ≤ N →
      epsilon_after e0 e1 N k = e0 * (decay_rate e0 e1 N) ^ k := by
  have he0 : 0 < e0 := lt_of_lt_of_le h1 h10
  have hdiv0 : 0 ≤ e1 / e0 := div_nonneg h1.le he0.le
  have hdiv1 : e1 / e0 ≤ 1 := (div_le_one he0).mpr h10
  have hr0 : 0 ≤ decay_rate e0 e1 N := Real.rpow_nonneg hdiv0 _
  have hr1 : decay_rate e0 e1 N ≤ 1 :=
    Real.rpow_le_one hdiv0 hdiv1 (by positivity)
  have hrN : (decay_rate e0 e1 N) ^ N = e1 / e0 :=
    decay_rate_pow e0 e1 N hN h1.le he0.le
  have hbound : ∀ k, k ≤ N → e1 ≤ e0 * (decay_rate e0 e1 N) ^ k := by
    intro k hk
    have hpow : (decay_rate e0 e1 N) ^ N ≤ (decay_rate e0 e1 N) ^ k :=
      pow_le_pow_of_le_one hr0 hr1 hk
    calc e1 = e0 * (e1 / e0) := by field_simp
    _ = e0 * (decay_rate e0 e1 N) ^ N := by rw [hrN]
    _ ≤ e0 * (decay_rate e0 e1 N) ^ k := mul_le_mul_of_nonneg_left hpow he0.le
  intro k
  induction k with
  | zero => intro _; simp [epsilon_after_zero]
  | succ k ih =>
    intro hk
    have hprev := ih (by omega)
    have hle : e1 ≤ e0 * (decay_rate e0 e1 N) ^ k * decay_rate e0 e1 N := by
      have := hbound (k + 1) hk
      calc e1 ≤ e0 * (decay_rate e0 e1 N) ^ (k + 1) := this
      _ = e0 * (decay_rate e0 e1 N) ^ k * decay_rate e0 e1 N := by ring
    rw [epsilon_after_succ, hprev, decay_epsilon, max_eq_right hle]
    ring

/-- C3 counterexample: the claim quantifies over every
`epsilon_start > 0` and `epsilon_end > 0`, but with
`epsilon_start = 1`, `epsilon_end = 4`, `N = 2` the decay rate is
`4 ** 0.5 = 2` and the `max` clamp freezes the first step at `4`, so
two applications yield `8`, not the promised `epsilon_end = 4`. -/
theorem C3_decay_counterexample :
    epsilon_after 1 4 2 2 = 8 ∧ epsilon_after 1 4 2 2 ≠ 4 := by
  have hc : decay_rate 1 4 2 = 2 := by
    rw [decay_rate, div_one, show (4 : ℝ) = 2 ^ (2 : ℕ) by norm_num, one_div]
    exact Real.pow_rpow_inv_natCast (by norm_num) (by norm_num)
  have h2 : epsilon_after 1 4 2 2 = 8 := by
    show decay_epsilon 4 (decay_rate 1 4 2) (decay_epsilon 4 (decay_rate 1 4 2) 1) = 8
    rw [hc, decay_epsilon, decay_epsilon]
    rw [show max (4 : ℝ) (1 * 2) = 4 from max_eq_left (by norm_num)]
    rw [show max (4 : ℝ) (4 * 2) = 4 * 2 from max_eq_right (by norm_num)]
    norm_num
  exact ⟨h2, by rw [h2]; norm_num⟩

/-- C3 (amended): for every `epsilon_start > 0`, `epsilon_end > 0`
with `epsilon_end ≤ epsilon_start` and episode count `N > 0`, applying
`epsilon ← max(epsilon_end, epsilon * decay_rate)` exactly `N` times
from `epsilon_start` yields exactly `epsilon_end` (over the reals);
and in the concrete scenario `epsilon_start = 1.0`,
`epsilon_end = 0.01`, `N = 2`, the decay rate is `0.1` and epsilon is
`0.1` after episode 1 and `0.01` after episode 2. -/
theorem C3_decay_reaches_epsilon_end (e0 e1 : ℝ) (N : ℕ)
    (hN : 0 < N) (h1 : 0 < e1) (h10 : e1 ≤ e0) :
    epsilon_after e0 e1 N N = e1 ∧
    decay_rate 1 (1 / 100) 2 = 1 / 10 ∧
    epsilon_after 1 (1 / 100) 2 1 = 1 / 10 ∧
    epsilon_after 1 (1 / 100) 2 2 = 1 / 100 := by
  have he0 : 0 < e0 := lt_of_lt_of_le h1 h10
  have hc : decay_rate 1 (1 / 100 : ℝ) 2 = 1 / 10 := by
    rw [decay_rate, div_one, show (1 / 100 : ℝ) = (1 / 10) ^ (2 : ℕ) by norm_num,
      one_div ((2 : ℕ) : ℝ)]
    exact Real.pow_rpow_inv_natCast (by norm_num) (by norm_num)
  have hs1 : epsilon_after 1 (1 / 100 : ℝ) 2 1 = 1 / 10 := by
    show decay_epsilon (1 / 100) (decay_rate 1 (1 / 100) 2) 1 = 1 / 10
    rw [hc, decay_epsilon, max_eq_right (by norm_num)]
    norm_num
  refine ⟨?_, hc, hs1, ?_⟩
  · rw [epsilon_after_eq_geometric e0 e1 N hN h1 h10 N le_rfl,
      decay_rate_pow e0 e1 N hN h1.le he0.le]
    field_simp
  · show decay_epsilon (1 / 100) (decay_rate 1 (1 / 100) 2)
      (decay_epsilon (1 / 100) (decay_rate 1 (1 / 100) 2) 1) = 1 / 100
    rw [hc, decay_epsilon, decay_epsilon]
    rw [show max ((1 : ℝ) / 100) (1 * (1 / 10)) = 1 * (1 / 10) from
      max_eq_right (by norm_num)]
    rw [show max ((1 : ℝ) / 100) (1 * (1 / 10) * (1 / 10)) = 1 * (1 / 10) * (1 / 10) from
      max_eq_right (by norm_num)]
    norm_num

/-- C3 witness: the amended theorem instantiated at the end-to-end
scenario `epsilon_start = 1.0`, `epsilon_end = 0.01`, `N = 2`. -/
theorem C3_decay_reaches_epsilon_end_witness :
    (0 < (2 : ℕ) ∧ (0 : ℝ) < 1 / 100 ∧ (1 / 100 : ℝ) ≤ 1) ∧
    (epsilon_after 1 (1 / 100) 2 2 = 1 / 100 ∧
     decay_rate 1 (1 / 100) 2 = 1 / 10 ∧
     epsilon_after 1 (1 / 100) 2 1 = 1 / 10 ∧
     epsilon_after 1 (1 / 100) 2 2 = 1 / 100) :=
  ⟨⟨by norm_num, by norm_num, by norm_num⟩,
    C3_decay_reaches_epsilon_end 1 (1 / 100) 2 (by norm_num) (by norm_num) (by norm_num)⟩

end CohortsViz
